import Mathlib

/-!
# DNX native bootstrapper: a shallow embedding

The development follows the native host of aspnet/DNX:

* `src/dnx.clr/ClrBootstrapper.h`    : `ClrBootstrapper::InitializeRuntime`
* `src/dnx.clr/HostAssemblyStore.cpp`: `FileExists`, `HostAssemblyStore::ProvideAssembly`
* `src/dnx/pal.win32.cpp`            : `GetNativeBootstrapperDirectory`, `get_runtime_path`,
                                       `CallApplicationMain`
* `src/dnx/pal.unix.cpp`             : `CallApplicationMain`

Wide and narrow C strings are lists of characters (the characters before the
terminator).  Operating-system services, the CLR hosting interfaces and the
collaborators of the repository that the functions call are explicit
arguments; every call to one of them is recorded in a log, so that "is not
called" is a statement about the log.
-/

namespace Dnx

/-! ## Platform constants -/

/-- A wide (or narrow) C string: its characters before the terminator. -/
abbrev WString := List Char

/-- Windows `HRESULT`: a signed 32-bit status code. -/
abbrev HRESULT := Int

/-- Windows `MAX_PATH`. -/
def MAX_PATH : Nat := 260

/-- Windows `S_OK`. -/
def S_OK : HRESULT := 0

/-- Windows `E_PENDING` (0x8000000A). -/
def E_PENDING : HRESULT := -2147483638

/-- Windows `E_FAIL` (0x80004005). -/
def E_FAIL : HRESULT := -2147467259

/-- Windows `FAILED(hr)`: the severity bit is set. -/
def FAILED (hr : HRESULT) : Bool := decide (hr < 0)

/-- Windows `SUCCEEDED(hr)`. -/
def SUCCEEDED (hr : HRESULT) : Bool := decide (0 ≤ hr)

/-! ## ClrBootstrapper (src/dnx.clr/ClrBootstrapper.h) -/

/-- The calls `InitializeRuntime` makes into the CLR hosting interfaces, in
source order. -/
inductive EngineOp
  | CLRCreateInstance
  | GetRequestedRuntime
  | SetDefaultStartupFlags
  | GetInterface
  | SetHostControl
  | GetCLRControl
  | SetAppDomainManagerType
  | Start
  deriving DecidableEq, Repr

/-- The hosted engine: the `HRESULT` of a call, given the calls made so far. -/
abbrev Engine := List EngineOp → EngineOp → HRESULT

/-- The data members of `ClrBootstrapper` that `InitializeRuntime` touches.
`m_pHostAssemblyManager` is `none` for `nullptr` and otherwise holds the
runtime directory the `HostAssemblyManager` was constructed with. -/
structure ClrBootstrapper where
  _calledInitializeRuntime : Bool
  _hrInitializeRuntime : HRESULT
  _MetaHostPolicy : Bool
  _RuntimeHost : Bool
  m_pHostAssemblyManager : Option WString
  _applicationBase : WString
  _runtimeDirectory : WString
  _handleExceptions : Bool
  deriving DecidableEq, Repr

/-- A bootstrapper together with the record of what has been done to the
engine and how many `HostAssemblyManager` objects have been allocated. -/
structure Host where
  self : ClrBootstrapper
  calls : List EngineOp
  managersCreated : Nat
  deriving DecidableEq, Repr

/-- The constructor `ClrBootstrapper::ClrBootstrapper()`.  `_handleExceptions`
is not initialised by the constructor, so its value is an argument. -/
def ClrBootstrapper.new (uninitialised : Bool) : ClrBootstrapper :=
  { _calledInitializeRuntime := false
    _hrInitializeRuntime := E_PENDING
    _MetaHostPolicy := false
    _RuntimeHost := false
    m_pHostAssemblyManager := none
    _applicationBase := []
    _runtimeDirectory := []
    _handleExceptions := uninitialised }

/-- A freshly constructed bootstrapper in a process where nothing has been
asked of the engine yet. -/
def Host.fresh (uninitialised : Bool) : Host :=
  { self := ClrBootstrapper.new uninitialised, calls := [], managersCreated := 0 }

/-- One call into the engine: ask the oracle, record the call. -/
def Host.call (engine : Engine) (h : Host) (op : EngineOp) : HRESULT × Host :=
  (engine h.calls op, { h with calls := h.calls ++ [op] })

/-- Modelled from the spec: the macro `_HR` (stdafx.h, not under src/).  "Any
step failing short-circuits with that step's native error code [...]; the
cached result is returned to all future callers including the one that
failed", and the state machine ends in `Initialized(Err)`: `_HR(x)` is
`if (SUCCEEDED(hr)) hr = (x);`.  A step is evaluated only while the local `hr`
holds a success code; once a step has failed its code stays in `hr`, the later
steps are skipped, and control still reaches the assignments at the end of the
function that cache `hr`.  Here `s` is `hr` together with the state before the
step, and `x` is the step. -/
def _HR (s : HRESULT × Host) (x : Host → HRESULT × Host) : HRESULT × Host :=
  if SUCCEEDED s.1 then x s.2 else s

/-- The method `ClrBootstrapper::InitializeRuntime` (ClrBootstrapper.h:100-155). -/
def InitializeRuntime (engine : Engine) (h : Host)
    (runtimeDirectory applicationBase : WString) (handleExceptions : Bool) : HRESULT × Host :=
  -- Lock lock(&_crit);
  if h.self._calledInitializeRuntime then
    (h.self._hrInitializeRuntime, h)
  else
    let hr : HRESULT := S_OK
    let h : Host :=
      { h with
        self := { h.self with
                  _applicationBase := applicationBase
                  _runtimeDirectory := runtimeDirectory
                  _handleExceptions := handleExceptions
                  -- m_pHostAssemblyManager = new HostAssemblyManager(runtimeDirectory);
                  m_pHostAssemblyManager := some runtimeDirectory }
        managersCreated := h.managersCreated + 1 }
    let s := _HR (hr, h) fun h => h.call engine .CLRCreateInstance
    -- PPV(&_MetaHostPolicy): the member holds the policy object once the call succeeded
    let s : HRESULT × Host :=
      (s.1, { s.2 with self := { s.2.self with _MetaHostPolicy := SUCCEEDED s.1 } })
    let s := _HR s fun h => h.call engine .GetRequestedRuntime
    let s := _HR s fun h => h.call engine .SetDefaultStartupFlags
    -- ICLRRuntimeHostPtr runtimeHost; set by GetInterface when it ran and succeeded
    let s := _HR s fun h => h.call engine .GetInterface
    let runtimeHost : Bool := SUCCEEDED s.1
    let s := _HR s fun h => h.call engine .SetHostControl
    let s := _HR s fun h => h.call engine .GetCLRControl
    let s := _HR s fun h => h.call engine .SetAppDomainManagerType
    let s := _HR s fun h => h.call engine .Start
    -- _RuntimeHost = runtimeHost; _hrInitializeRuntime = hr; _calledInitializeRuntime = TRUE;
    (s.1, { s.2 with self := { s.2.self with
                               _RuntimeHost := runtimeHost
                               _hrInitializeRuntime := s.1
                               _calledInitializeRuntime := true } })

/-- A sequence of `InitializeRuntime` calls on the same bootstrapper: the
results in call order and the final state. -/
def initializeAll (engine : Engine) :
    Host → List (WString × WString × Bool) → List HRESULT × Host
  | h, [] => ([], h)
  | h, (r, a, e) :: rest =>
    let first := InitializeRuntime engine h r a e
    let others := initializeAll engine first.2 rest
    (first.1 :: others.1, others.2)

/-- The steps of the `InitializeRuntime` sequence, in source order. -/
def initializationSteps : List EngineOp :=
  [.CLRCreateInstance, .GetRequestedRuntime, .SetDefaultStartupFlags, .GetInterface,
   .SetHostControl, .GetCLRControl, .SetAppDomainManagerType, .Start]

/-- An engine that answers `e` to the call `op` and `S_OK` to every other call. -/
def Engine.failsAt (op : EngineOp) (e : HRESULT) : Engine :=
  fun _ o => if o = op then e else S_OK

/-! ## Operating-system services shared by the Windows sources -/

/-- The string terminator. -/
def NUL : Char := Char.ofNat 0

/-- The Windows path separator, a backslash. -/
def backslash : Char := Char.ofNat 92

/-- What the functions below ask of their surroundings, in call order. -/
inductive Event
  | GetEnvironmentVariable (name : WString)
  | GetFileAttributes (path : WString)
  | QueryInterface (object : Nat)
  | Open (path : WString)
  | servicing (location : WString) (isDefault : Bool)
  | write (message : WString) (verbose : Bool)
  | load (path : WString) (handle : Option Nat)
  | resolve (handle : Nat) (name : WString)
  | entry
  | unload (handle : Nat)
  deriving DecidableEq, Repr

/-- Win32 `GetEnvironmentVariable(name, buffer, nSize)` over the environment
block `env`: the return value and the string the buffer holds afterwards.  A
variable that is not set gives 0.  A value that fits with its terminator is
copied and its length returned.  Otherwise the number of characters needed,
terminator included, is returned; the API leaves the content of the buffer
unspecified in that case, and as Windows does not write to it the buffer is
kept as it was. -/
def GetEnvironmentVariable (env : WString → Option WString) (name buffer : WString)
    (nSize : Nat) : Nat × WString :=
  match env name with
  | none => (0, buffer)
  | some value =>
    if value.length < nSize then (value.length, value) else (value.length + 1, buffer)

/-- Reinterpretation of a 32-bit pattern as a signed `int`. -/
def toInt32 (x : Nat) : Int :=
  if x % 2 ^ 32 < 2 ^ 31 then ((x % 2 ^ 32 : Nat) : Int) else ((x % 2 ^ 32 : Nat) : Int) - 2 ^ 32

/-- Windows `ERROR_FILE_NOT_FOUND`. -/
def ERROR_FILE_NOT_FOUND : Nat := 2

/-- Windows `HRESULT_FROM_WIN32`. -/
def HRESULT_FROM_WIN32 (x : Nat) : HRESULT :=
  if toInt32 x ≤ 0 then toInt32 x
  else toInt32 ((x &&& 0x0000FFFF) ||| (7 <<< 16) ||| 0x80000000)

/-- Windows `INVALID_FILE_ATTRIBUTES`. -/
def INVALID_FILE_ATTRIBUTES : Nat := 0xFFFFFFFF

/-- Windows `FILE_ATTRIBUTE_DIRECTORY`. -/
def FILE_ATTRIBUTE_DIRECTORY : Nat := 0x10

/-! ## HostAssemblyStore (src/dnx.clr/HostAssemblyStore.cpp) -/

/-- The constant `AppDomainManagerTypeName` (HostAssemblyStore.cpp:7). -/
def AppDomainManagerTypeName : WString :=
  ("dnx.clr.managed, Version=1.0.0.0, Culture=neutral, " ++
    "PublicKeyToken=adb9793829ddae60, ProcessorArchitecture=MSIL").toList

/-- The C string an array of characters holds: what comes before the first
terminator. -/
def cstr (buffer : List Char) : WString := buffer.takeWhile (· != NUL)

/-- CRT `towlower` in the "C" locale: the letters A to Z go to a to z. -/
def towlower (c : Char) : Char :=
  if 65 ≤ c.toNat ∧ c.toNat ≤ 90 then Char.ofNat (c.toNat + 32) else c

/-- CRT `_wcsicmp`: walk both strings, comparing lower-cased characters, and
return the difference at the first place they differ (0 when both end). -/
def _wcsicmp : WString → WString → Int
  | [], [] => 0
  | [], b :: _ => 0 - ((towlower b).toNat : Int)
  | a :: _, [] => ((towlower a).toNat : Int) - 0
  | a :: as, b :: bs =>
    if towlower a = towlower b then _wcsicmp as bs
    else ((towlower a).toNat : Int) - ((towlower b).toNat : Int)

/-- What `ProvideAssembly` calls: the environment block, `GetFileAttributes`,
`ComObject<FileStream>::QueryInterface` on the n-th stream object the call
creates, `FileStream::Open`, and the character `back()` happens to read on an
empty string (undefined behaviour in C++). -/
structure Store where
  env : WString → Option WString
  GetFileAttributes : WString → Nat
  QueryInterface : Nat → HRESULT
  Open : WString → HRESULT
  backOfEmpty : Char

/-- An `IStream` the caller may hold: a `FileStream` opened on a path. -/
structure Stream where
  path : WString
  deriving DecidableEq, Repr

/-- The two `IStream*` slots `ppStmAssemblyImage` and `ppStmPDB` point to;
`none` is `NULL`. -/
structure Streams where
  ppStmAssemblyImage : Option Stream
  ppStmPDB : Option Stream
  deriving DecidableEq, Repr

/-- The helper `FileExists` (HostAssemblyStore.cpp:11-16). -/
def FileExists (s : Store) (path : WString) : Bool :=
  let attributes := s.GetFileAttributes path
  attributes != INVALID_FILE_ATTRIBUTES && ((attributes &&& FILE_ATTRIBUTE_DIRECTORY) == 0)

/-- C++ `std::wstring::back`. -/
def back (s : Store) (path : WString) : Char :=
  match path.getLast? with
  | some c => c
  | none => s.backOfEmpty

/-- C++ `std::wstring::replace(pos, len, str)` for `pos ≤ length`. -/
def replace (path : WString) (pos len : Nat) (str : WString) : WString :=
  path.take pos ++ str ++ path.drop (pos + len)

/-- The method `HostAssemblyStore::ProvideAssembly` (HostAssemblyStore.cpp:20-69):
the result, the final content of the two output slots (given their content
`out` on entry) and the calls made. -/
def ProvideAssembly (s : Store) (lpReferencedIdentity : WString) (out : Streams) :
    HRESULT × Streams × List Event :=
  if _wcsicmp AppDomainManagerTypeName lpReferencedIdentity = 0 then
    -- wchar_t default_lib[MAX_PATH] = { 0 };
    let r := GetEnvironmentVariable s.env "DNX_DEFAULT_LIB".toList [] MAX_PATH
    let log := [Event.GetEnvironmentVariable "DNX_DEFAULT_LIB".toList]
    if r.1 = 0 then
      (HRESULT_FROM_WIN32 ERROR_FILE_NOT_FOUND, out, log)
    else
      let path : WString := r.2
      let path := if back s path ≠ backslash then path ++ [backslash] else path
      let path := path ++ "dnx.clr.managed.dll".toList
      if path.length > MAX_PATH then
        (HRESULT_FROM_WIN32 ERROR_FILE_NOT_FOUND, out, log)
      else
        let log := log ++ [Event.GetFileAttributes path]
        if !FileExists s path then
          (HRESULT_FROM_WIN32 ERROR_FILE_NOT_FOUND, out, log)
        else
          -- auto assembly_stream = new ComObject<FileStream>();
          let log := log ++ [Event.QueryInterface 0]
          if FAILED (s.QueryInterface 0) then
            (HRESULT_FROM_WIN32 ERROR_FILE_NOT_FOUND, { out with ppStmAssemblyImage := none }, log)
          else
            let log := log ++ [Event.Open path]
            if FAILED (s.Open path) then
              (HRESULT_FROM_WIN32 ERROR_FILE_NOT_FOUND,
                { out with ppStmAssemblyImage := none }, log)
            else
              let out := { out with ppStmAssemblyImage := some ⟨path⟩ }
              let path := replace path (path.length - 3) 3 "pdb".toList
              let log := log ++ [Event.GetFileAttributes path]
              if FileExists s path then
                -- auto pdb_stream = new ComObject<FileStream>();
                let log := log ++ [Event.QueryInterface 1]
                if FAILED (s.QueryInterface 1) then
                  (S_OK, { out with ppStmPDB := none }, log)
                else
                  let log := log ++ [Event.Open path]
                  if FAILED (s.Open path) then
                    (S_OK, { out with ppStmPDB := none }, log)
                  else
                    (S_OK, { out with ppStmPDB := some ⟨path⟩ }, log)
              else
                (S_OK, out, log)
  else
    (HRESULT_FROM_WIN32 ERROR_FILE_NOT_FOUND, out, [])

/-- The target path the matched branch builds from a directory value that was
read into the buffer: the directory, a backslash when it does not end in one,
then the file name. -/
def targetPath (dir : WString) : WString :=
  (if dir.getLast? = some backslash then dir else dir ++ [backslash])
    ++ "dnx.clr.managed.dll".toList

/-- The companion of a target path: its last three characters replaced by
"pdb". -/
def companionPath (target : WString) : WString :=
  target.take (target.length - 3) ++ "pdb".toList

/-- A store for examples: `DNX_DEFAULT_LIB` is `dir`, the files listed in
`files` exist as plain files (attribute `FILE_ATTRIBUTE_ARCHIVE`), everything
opens, and `back()` on an empty string reads `g`. -/
def Store.example (dir : Option WString) (files : List WString) (g : Char) : Store :=
  { env := fun name => if name = "DNX_DEFAULT_LIB".toList then dir else none
    GetFileAttributes := fun path => if path ∈ files then 0x20 else INVALID_FILE_ATTRIBUTES
    QueryInterface := fun _ => S_OK
    Open := fun _ => S_OK
    backOfEmpty := g }

/-! ## pal.win32.cpp and pal.unix.cpp (src/dnx) -/

/-- What a C++ call can raise.  `runtime_error` is `std::runtime_error`,
`std_exception` any other class derived from `std::exception`, `foreign` an
object of a type that is not derived from `std::exception`, and `assertion` a
failed `_ASSERTE`. -/
inductive Exn
  | runtime_error (what : WString)
  | std_exception (what : WString)
  | foreign (tag : Nat)
  | assertion
  deriving DecidableEq, Repr

deriving instance DecidableEq for Except

/-- Whether a handler `catch (const std::exception&)` takes the exception. -/
def Exn.isStdException : Exn → Bool
  | .runtime_error _ => true
  | .std_exception _ => true
  | .foreign _ => false
  | .assertion => false

/-- The fields of `CALL_APPLICATION_MAIN_DATA` (app_main.h) the two
`CallApplicationMain` functions read or write. -/
structure CALL_APPLICATION_MAIN_DATA where
  runtimeDirectory : Option WString
  exitcode : Int
  deriving DecidableEq, Repr

/-- The type `FnCallApplicationMain` of the exported entry point: it returns an
`int` and may write to the data block, or raises. -/
abbrev FnCallApplicationMain :=
  CALL_APPLICATION_MAIN_DATA → Except Exn (Int × CALL_APPLICATION_MAIN_DATA)

/-- What the platform layer calls: the environment block, the servicing
collaborator `dnx::servicing::get_runtime_path`, the helpers
`dnx::utils::path_combine`, `to_string` and `to_wstring`, the trace writer
(`none` when `write` returns, `some e` when it raises `e`), the loader
(`LoadLibraryEx` or `dlopen`, `GetProcAddress` or `dlsym`), the Unix
`GetNativeBootstrapperDirectory` and `dlerror`, and the content of the
uninitialised `servicing_location_buffer`. -/
structure Pal where
  env : WString → Option WString
  servicing : WString → Bool → WString
  path_combine : WString → WString → WString
  to_string : WString → WString
  to_wstring : WString → WString
  write : WString → Bool → Option Exn
  load : WString → Option Nat
  resolve : Nat → WString → Option FnCallApplicationMain
  nativeBootstrapperDirectory : WString
  dlerror : WString
  uninitialised : WString

/-- The vector `servicing_locations` of `get_runtime_path`. -/
def servicing_locations : List WString :=
  ["DNX_SERVICING".toList, "ProgramFiles(x86)".toList, "ProgramFiles".toList]

/-- The locals of `get_runtime_path` after its `for` loop. -/
structure Probe where
  result : Nat
  index : Nat
  servicing_location_buffer : WString
  log : List Event
  deriving DecidableEq, Repr

/-- The `for` loop of `get_runtime_path` over the locations still to try:
stop at the first variable for which `GetEnvironmentVariable` does not
return 0. -/
def probe (env : WString → Option WString) :
    List WString → Nat → WString → List Event → Probe
  | [], index, buffer, log => ⟨0, index, buffer, log⟩
  | name :: rest, index, buffer, log =>
    let r := GetEnvironmentVariable env name buffer MAX_PATH
    let log := log ++ [Event.GetEnvironmentVariable name]
    if r.1 ≠ 0 then ⟨r.1, index, r.2, log⟩
    else probe env rest (index + 1) r.2 log

/-- The function `get_runtime_path` (pal.win32.cpp:49-92): what it returns or
raises, and the calls it made.  A failed `_ASSERTE` ends the run with
`Exn.assertion`. -/
def get_runtime_path (p : Pal) : Except Exn WString × List Event :=
  let pr := probe p.env servicing_locations 0 p.uninitialised []
  -- _ASSERTE(index < servicing_locations.size());
  if ¬ pr.index < servicing_locations.length then
    (.error .assertion, pr.log)
  else if pr.result > MAX_PATH then
    (.error (.runtime_error
      ("The value of the '".toList ++ p.to_string (servicing_locations.getD pr.index [])
        ++ "' environment variable is invalid. The application will exit.".toList)),
     pr.log)
  else
    let is_default_servicing_location := pr.index != 0
    let runtime_path :=
      p.servicing pr.servicing_location_buffer is_default_servicing_location
    let log := pr.log ++
      [Event.servicing pr.servicing_location_buffer is_default_servicing_location]
    if runtime_path.length > 0 then
      (.ok (p.path_combine runtime_path "bin\\".toList), log)
    else
      (.ok [], log)

/-- The state a `try` block is left in: its result, the module handle held at
that point, and the calls made. -/
structure TryBlock where
  result : Except Exn Int
  host : Option Nat
  log : List Event

/-- The `try` block of the Windows `CallApplicationMain` (pal.win32.cpp:98-130). -/
def Win32.tryBlock (p : Pal) (moduleName functionName : WString)
    (data : CALL_APPLICATION_MAIN_DATA) : TryBlock :=
  let rp := get_runtime_path p
  match rp.1 with
  | .error e => ⟨.error e, none, rp.2⟩
  | .ok runtime_new_path =>
    let redirected := decide (runtime_new_path.length > 0)
    let message := "Redirecting runtime to: ".toList ++ runtime_new_path
    let log := if redirected then rp.2 ++ [Event.write message true] else rp.2
    match (if redirected then p.write message true else none) with
    | some e => ⟨.error e, none, log⟩
    | none =>
      let data := if redirected then { data with runtimeDirectory := some runtime_new_path }
                  else data
      let module_path := p.path_combine runtime_new_path moduleName
      let hostModule := p.load module_path
      let log := log ++ [Event.load module_path hostModule]
      match hostModule with
      | none =>
        ⟨.error (.runtime_error ("Failed to load: ".toList ++ p.to_string moduleName)), none, log⟩
      | some h =>
        let log := log ++ [Event.write ("Loaded module: ".toList ++ module_path) true]
        match p.write ("Loaded module: ".toList ++ module_path) true with
        | some e => ⟨.error e, some h, log⟩
        | none =>
          let log := log ++ [Event.resolve h functionName]
          match p.resolve h functionName with
          | none =>
            ⟨.error (.runtime_error ("Failed to find export '".toList ++ functionName
                ++ "' in ".toList ++ p.to_string moduleName)), some h, log⟩
          | some pfnCallApplicationMain =>
            let found := "Found export: ".toList ++ p.to_wstring functionName
            let log := log ++ [Event.write found true]
            match p.write found true with
            | some e => ⟨.error e, some h, log⟩
            | none =>
              let log := log ++ [Event.entry]
              match pfnCallApplicationMain data with
              | .error e => ⟨.error e, some h, log⟩
              | .ok (hr, data) =>
                -- FreeLibrary(hostModule);
                let log := log ++ [Event.unload h]
                ⟨.ok (if SUCCEEDED hr then data.exitcode else hr), some h, log⟩

/-- The Windows `CallApplicationMain` (pal.win32.cpp:95-140): the `try` block
under `catch (...)`, which frees the module when one is held and rethrows. -/
def Win32.CallApplicationMain (p : Pal) (moduleName functionName : WString)
    (data : CALL_APPLICATION_MAIN_DATA) : Except Exn Int × List Event :=
  let t := Win32.tryBlock p moduleName functionName data
  match t.result with
  | .ok exitcode => (.ok exitcode, t.log)
  | .error e =>
    match t.host with
    | some h => (.error e, t.log ++ [Event.unload h])
    | none => (.error e, t.log)

/-- The `try` block of the Unix `CallApplicationMain` (pal.unix.cpp:37-63). -/
def Unix.tryBlock (p : Pal) (localPath moduleName functionName : WString)
    (data : CALL_APPLICATION_MAIN_DATA) : TryBlock :=
  let host := p.load localPath
  let log := [Event.load localPath host]
  match host with
  | none =>
    ⟨.error (.runtime_error ("Failed to load: '".toList ++ moduleName
        ++ "' error: ".toList ++ p.dlerror)), none, log⟩
  | some h =>
    let log := log ++ [Event.write ("Loaded module: ".toList ++ moduleName) true]
    match p.write ("Loaded module: ".toList ++ moduleName) true with
    | some e => ⟨.error e, some h, log⟩
    | none =>
      let log := log ++ [Event.resolve h functionName]
      match p.resolve h functionName with
      | none =>
        ⟨.error (.runtime_error ("Failed to find export '".toList ++ functionName
            ++ "' in ".toList ++ moduleName)), some h, log⟩
      | some pfnCallApplicationMain =>
        let log := log ++ [Event.write ("Found export: ".toList ++ functionName) true]
        match p.write ("Found export: ".toList ++ functionName) true with
        | some e => ⟨.error e, some h, log⟩
        | none =>
          let log := log ++ [Event.entry]
          match pfnCallApplicationMain data with
          | .error e => ⟨.error e, some h, log⟩
          | .ok (result, data) =>
            -- dlclose(host);
            let log := log ++ [Event.unload h]
            ⟨.ok (if result = 0 then data.exitcode else result), some h, log⟩

/-- The Unix `CallApplicationMain` (pal.unix.cpp:32-73): the `try` block under
`catch (const std::exception&)`, which closes the module when one is held and
rethrows; any other exception leaves the function past the handler. -/
def Unix.CallApplicationMain (p : Pal) (moduleName functionName : WString)
    (data : CALL_APPLICATION_MAIN_DATA) : Except Exn Int × List Event :=
  let localPath := p.nativeBootstrapperDirectory ++ "/".toList ++ moduleName
  let t := Unix.tryBlock p localPath moduleName functionName data
  match t.result with
  | .ok exitcode => (.ok exitcode, t.log)
  | .error e =>
    if e.isStdException then
      match t.host with
      | some h => (.error e, t.log ++ [Event.unload h])
      | none => (.error e, t.log)
    else
      (.error e, t.log)

/-- Successful `dlopen` / `LoadLibraryEx` calls in a log. -/
def loads (log : List Event) : Nat :=
  log.countP fun e => match e with
    | .load _ (some _) => true
    | _ => false

/-- Calls of `dlclose` / `FreeLibrary` in a log. -/
def unloads (log : List Event) : Nat :=
  log.countP fun e => match e with
    | .unload _ => true
    | _ => false

/-- The calls of the servicing collaborator in a log. -/
def servicingCalls (log : List Event) : List Event :=
  log.filter fun e => match e with
    | .servicing _ _ => true
    | _ => false

/-- A variable counts as a source when it is set to a non-empty value. -/
def isSet (env : WString → Option WString) (name : WString) : Bool :=
  match env name with
  | some value => decide (0 < value.length)
  | none => false

/-- The winning source: the first of the three locations that is set and
non-empty. -/
def winner (env : WString → Option WString) : Option WString :=
  servicing_locations.find? (isSet env)

/-- The first of the three locations that is set, non-empty and short enough
for the buffer. -/
def firstValid (env : WString → Option WString) : Option WString :=
  servicing_locations.find? fun name =>
    match env name with
    | some value => decide (0 < value.length ∧ value.length < MAX_PATH)
    | none => false

/-- An environment block given as a list of bindings. -/
def envOf (bindings : List (String × WString)) : WString → Option WString :=
  fun name => (bindings.find? fun b => b.1.toList = name).map Prod.snd

/-- A platform for examples: the servicing collaborator answers `redirect`,
paths are combined by concatenation, traces never raise, every module loads
with handle 1 and exports `entry`. -/
def Pal.example (env : WString → Option WString) (redirect : WString)
    (entry : FnCallApplicationMain) : Pal :=
  { env := env
    servicing := fun _ _ => redirect
    path_combine := fun a b => a ++ b
    to_string := id
    to_wstring := id
    write := fun _ _ => none
    load := fun _ => some 1
    resolve := fun _ _ => some entry
    nativeBootstrapperDirectory := "/opt/dnx/bin".toList
    dlerror := []
    uninitialised := [] }

/-! ### GetNativeBootstrapperDirectory (pal.win32.cpp:15-22) -/

/-- Win32 `GetModuleFileName(NULL, buffer, nSize)`: the return value and the
array afterwards.  A name that fits is copied with its terminator and its
length returned; otherwise the name is truncated to `nSize` characters,
terminator included, and `nSize` is returned. -/
def GetModuleFileName (fileName : WString) (buffer : List Char) (nSize : Nat) :
    Nat × List Char :=
  if fileName.length < nSize then
    (fileName.length, fileName ++ [NUL] ++ buffer.drop (fileName.length + 1))
  else
    (nSize, fileName.take (nSize - 1) ++ [NUL] ++ buffer.drop nSize)

/-- The `for` loop of `GetNativeBootstrapperDirectory` after its initial
`dirLength--`, with a bound on the number of iterations.  `dirLength` is a
`DWORD`, so `dirLength >= 0` always holds and `dirLength--` wraps at zero; a
read outside the array, or running out of iterations, gives `none`. -/
def scanBack (buffer : List Char) : Nat → Nat → Option Nat
  | 0, _ => none
  | fuel + 1, dirLength =>
    match buffer.get? dirLength with
    | none => none
    | some c =>
      if c ≠ backslash then scanBack buffer fuel ((dirLength + 2 ^ 32 - 1) % 2 ^ 32)
      else some dirLength

/-- The Windows `GetNativeBootstrapperDirectory` (pal.win32.cpp:15-22) for an
executable whose path is `fileName`; `uninitialised` is the content of the
local array on entry and `fuel` bounds the loop. -/
def GetNativeBootstrapperDirectory (fuel : Nat) (fileName : WString)
    (uninitialised : List Char) : Option WString :=
  let r := GetModuleFileName fileName uninitialised MAX_PATH
  let buffer := r.2
  match scanBack buffer fuel ((r.1 + 2 ^ 32 - 1) % 2 ^ 32) with
  | none => none
  | some dirLength =>
    let i := (dirLength + 1) % 2 ^ 32
    if i < buffer.length then some (cstr (buffer.set i NUL)) else none

/-! ## Theorems -/

theorem FAILED_eq_not_SUCCEEDED (hr : HRESULT) : FAILED hr = !SUCCEEDED hr := by
  unfold FAILED SUCCEEDED
  rcases Int.lt_or_le hr 0 with h | h
  · rw [decide_eq_true h, decide_eq_false (Int.not_le.mpr h)]; rfl
  · rw [decide_eq_false (Int.not_lt.mpr h), decide_eq_true h]; rfl

theorem SUCCEEDED_S_OK : SUCCEEDED S_OK = true := by decide

/-- A success code after `_HR` means the step ran, on a success code. -/
theorem _HR_of_succeeded (s : HRESULT × Host) (x : Host → HRESULT × Host)
    (hok : SUCCEEDED (_HR s x).1 = true) : SUCCEEDED s.1 = true ∧ _HR s x = x s.2 := by
  unfold _HR at hok ⊢
  by_cases hs : SUCCEEDED s.1 = true
  · exact ⟨hs, by rw [if_pos hs]⟩
  · rw [if_neg hs] at hok
    exact absurd hok hs

/-- Once `_calledInitializeRuntime` is set the call returns the cached result
and touches nothing. -/
theorem InitializeRuntime_of_called (engine : Engine) (h : Host) (r a : WString) (e : Bool)
    (hc : h.self._calledInitializeRuntime = true) :
    InitializeRuntime engine h r a e = (h.self._hrInitializeRuntime, h) := by
  simp [InitializeRuntime, hc]

theorem initializeAll_of_called (engine : Engine) (h : Host)
    (hc : h.self._calledInitializeRuntime = true) (later : List (WString × WString × Bool)) :
    initializeAll engine h later
      = (List.replicate later.length h.self._hrInitializeRuntime, h) := by
  induction later with
  | nil => rfl
  | cons c rest ih =>
    obtain ⟨r, a, e⟩ := c
    simp [initializeAll, InitializeRuntime_of_called engine h r a e hc, ih, List.replicate_succ]

/-- A first call that does not fail ran all eight steps, cached its result and
stored its three arguments. -/
theorem InitializeRuntime_of_succeeded (engine : Engine) (h : Host) (r a : WString) (e : Bool)
    (hc : h.self._calledInitializeRuntime = false)
    (hok : SUCCEEDED (InitializeRuntime engine h r a e).1 = true) :
    (InitializeRuntime engine h r a e).2.self._calledInitializeRuntime = true ∧
    (InitializeRuntime engine h r a e).2.self._hrInitializeRuntime
      = (InitializeRuntime engine h r a e).1 ∧
    (InitializeRuntime engine h r a e).2.self._runtimeDirectory = r ∧
    (InitializeRuntime engine h r a e).2.self._applicationBase = a ∧
    (InitializeRuntime engine h r a e).2.self._handleExceptions = e ∧
    (InitializeRuntime engine h r a e).2.calls
      = h.calls ++ [.CLRCreateInstance, .GetRequestedRuntime, .SetDefaultStartupFlags,
          .GetInterface, .SetHostControl, .GetCLRControl, .SetAppDomainManagerType, .Start] ∧
    (InitializeRuntime engine h r a e).2.managersCreated = h.managersCreated + 1 := by
  simp only [InitializeRuntime, hc, Bool.false_eq_true, if_false] at hok ⊢
  have k8 := _HR_of_succeeded _ _ hok
  have k7 := _HR_of_succeeded _ _ k8.1
  have k6 := _HR_of_succeeded _ _ k7.1
  have k5 := _HR_of_succeeded _ _ k6.1
  have k4 := _HR_of_succeeded _ _ k5.1
  have k3 := _HR_of_succeeded _ _ k4.1
  have k2 := _HR_of_succeeded _ _ k3.1
  have k1 := _HR_of_succeeded _ _ k2.1
  rw [k8.2, k7.2, k6.2, k5.2, k4.2, k3.2, k2.2, k1.2]
  simp [Host.call]

/-- C1: on a fresh bootstrapper whose first `InitializeRuntime(r1, a1, h1)`
returns a success code, every later call, whatever its arguments, returns that
same cached code, makes no call into the engine (the eight calls of the first
run are all there ever are, and one `HostAssemblyManager` is ever created),
leaves the whole state as the first call left it, and the stored runtime
directory, application base and exception flag are `r1`, `a1`, `h1`. -/
theorem InitializeRuntime_idempotent_after_success (engine : Engine) (uninitialised : Bool)
    (r1 a1 : WString) (h1 : Bool) (later : List (WString × WString × Bool))
    (hok : SUCCEEDED (InitializeRuntime engine (Host.fresh uninitialised) r1 a1 h1).1 = true) :
    (initializeAll engine (InitializeRuntime engine (Host.fresh uninitialised) r1 a1 h1).2 later).1
      = List.replicate later.length
          (InitializeRuntime engine (Host.fresh uninitialised) r1 a1 h1).1 ∧
    (initializeAll engine (InitializeRuntime engine (Host.fresh uninitialised) r1 a1 h1).2 later).2
      = (InitializeRuntime engine (Host.fresh uninitialised) r1 a1 h1).2 ∧
    (InitializeRuntime engine (Host.fresh uninitialised) r1 a1 h1).2.calls
      = [.CLRCreateInstance, .GetRequestedRuntime, .SetDefaultStartupFlags,
          .GetInterface, .SetHostControl, .GetCLRControl, .SetAppDomainManagerType, .Start] ∧
    (InitializeRuntime engine (Host.fresh uninitialised) r1 a1 h1).2.managersCreated = 1 ∧
    (InitializeRuntime engine (Host.fresh uninitialised) r1 a1 h1).2.self._runtimeDirectory = r1 ∧
    (InitializeRuntime engine (Host.fresh uninitialised) r1 a1 h1).2.self._applicationBase = a1 ∧
    (InitializeRuntime engine (Host.fresh uninitialised) r1 a1 h1).2.self._handleExceptions = h1 := by
  obtain ⟨hcalled, hhr, hr, ha, he, hcalls, hm⟩ :=
    InitializeRuntime_of_succeeded engine (Host.fresh uninitialised) r1 a1 h1 rfl hok
  rw [initializeAll_of_called engine _ hcalled later, hhr]
  exact ⟨rfl, rfl, by simpa [Host.fresh] using hcalls, by simpa [Host.fresh] using hm, hr, ha, he⟩

/-- An engine that always answers `S_OK`. -/
theorem InitializeRuntime_idempotent_after_success_witness :
    SUCCEEDED (InitializeRuntime (fun _ _ => S_OK) (Host.fresh false)
      "C:\\dnx".toList "C:\\app".toList true).1 = true ∧
    (initializeAll (fun _ _ => S_OK)
        (InitializeRuntime (fun _ _ => S_OK) (Host.fresh false)
          "C:\\dnx".toList "C:\\app".toList true).2
        [("D:\\other".toList, "D:\\base".toList, false)]).1 = [S_OK] :=
  ⟨by decide,
   (InitializeRuntime_idempotent_after_success (fun _ _ => S_OK) false
      "C:\\dnx".toList "C:\\app".toList true
      [("D:\\other".toList, "D:\\base".toList, false)] (by decide)).1.trans (by decide)⟩

/-- A step leaves the bootstrapper's members and the allocation count alone. -/
theorem _HR_call_self (engine : Engine) (s : HRESULT × Host) (op : EngineOp) :
    (_HR s fun h => h.call engine op).2.self = s.2.self ∧
    (_HR s fun h => h.call engine op).2.managersCreated = s.2.managersCreated := by
  unfold _HR Host.call
  split <;> exact ⟨rfl, rfl⟩

/-- Whatever the engine answers, the first call on a bootstrapper sets the flag
and stores the code it returns. -/
theorem InitializeRuntime_caches (engine : Engine) (h : Host) (r a : WString) (e : Bool)
    (hc : h.self._calledInitializeRuntime = false) :
    (InitializeRuntime engine h r a e).2.self._calledInitializeRuntime = true ∧
    (InitializeRuntime engine h r a e).2.self._hrInitializeRuntime
      = (InitializeRuntime engine h r a e).1 := by
  simp [InitializeRuntime, hc]

/-- C2: on a fresh bootstrapper, let step `k` of the sequence
(`CLRCreateInstance`, `GetRequestedRuntime`, `SetDefaultStartupFlags`,
`GetInterface`, `SetHostControl`, `GetCLRControl`, `SetAppDomainManagerType`,
`Start`) be the first to fail, with code `e`.  The call returns `e`, the calls
made into the engine are exactly the steps up to and including step `k` (no
later step runs), and every later `InitializeRuntime` call, whatever its
arguments, returns `e` again, makes no engine call and leaves the state as the
first call left it. -/
theorem InitializeRuntime_failure_cached (engine : Engine) (uninitialised : Bool)
    (r1 a1 : WString) (h1 : Bool) (k : Nat) (later : List (WString × WString × Bool))
    (hk : k < initializationSteps.length)
    (hprev : ∀ j, j < k →
      SUCCEEDED (engine (initializationSteps.take j) (initializationSteps.getD j .Start)) = true)
    (hfail :
      FAILED (engine (initializationSteps.take k) (initializationSteps.getD k .Start)) = true) :
    (InitializeRuntime engine (Host.fresh uninitialised) r1 a1 h1).1
      = engine (initializationSteps.take k) (initializationSteps.getD k .Start) ∧
    (InitializeRuntime engine (Host.fresh uninitialised) r1 a1 h1).2.calls
      = initializationSteps.take (k + 1) ∧
    (initializeAll engine (InitializeRuntime engine (Host.fresh uninitialised) r1 a1 h1).2 later).1
      = List.replicate later.length
          (engine (initializationSteps.take k) (initializationSteps.getD k .Start)) ∧
    (initializeAll engine (InitializeRuntime engine (Host.fresh uninitialised) r1 a1 h1).2 later).2
      = (InitializeRuntime engine (Host.fresh uninitialised) r1 a1 h1).2 := by
  have hcache := InitializeRuntime_caches engine (Host.fresh uninitialised) r1 a1 h1 rfl
  have hf : SUCCEEDED
      (engine (initializationSteps.take k) (initializationSteps.getD k .Start)) = false := by
    rw [FAILED_eq_not_SUCCEEDED] at hfail
    simpa using hfail
  have core : (InitializeRuntime engine (Host.fresh uninitialised) r1 a1 h1).1
        = engine (initializationSteps.take k) (initializationSteps.getD k .Start) ∧
      (InitializeRuntime engine (Host.fresh uninitialised) r1 a1 h1).2.calls
        = initializationSteps.take (k + 1) := by
    have p0 := hprev 0
    have p1 := hprev 1
    have p2 := hprev 2
    have p3 := hprev 3
    have p4 := hprev 4
    have p5 := hprev 5
    have p6 := hprev 6
    have hk8 : k < 8 := hk
    clear hprev hfail hcache hk
    interval_cases k <;>
      simp [initializationSteps] at p0 p1 p2 p3 p4 p5 p6 hf <;>
      simp [InitializeRuntime, Host.fresh, ClrBootstrapper.new, _HR, Host.call, SUCCEEDED_S_OK,
        initializationSteps, *]
  rw [initializeAll_of_called engine _ hcache.1 later, hcache.2, core.1]
  exact ⟨rfl, core.2, rfl, rfl⟩

/-- The engine fails at `Start`, the last step, with `E_FAIL`: the first call
returns `E_FAIL` after all eight calls, and a later call with other arguments
returns `E_FAIL` again. -/
theorem InitializeRuntime_failure_cached_witness :
    (InitializeRuntime (Engine.failsAt .Start E_FAIL) (Host.fresh false)
      "C:\\dnx".toList "C:\\app".toList true).1 = E_FAIL ∧
    (InitializeRuntime (Engine.failsAt .Start E_FAIL) (Host.fresh false)
      "C:\\dnx".toList "C:\\app".toList true).2.calls = initializationSteps ∧
    (initializeAll (Engine.failsAt .Start E_FAIL)
        (InitializeRuntime (Engine.failsAt .Start E_FAIL) (Host.fresh false)
          "C:\\dnx".toList "C:\\app".toList true).2
        [("D:\\other".toList, "D:\\base".toList, false)]).1 = [E_FAIL] :=
  have h := InitializeRuntime_failure_cached (Engine.failsAt .Start E_FAIL) false
    "C:\\dnx".toList "C:\\app".toList true 7
    [("D:\\other".toList, "D:\\base".toList, false)] (by decide) (by decide) (by decide)
  ⟨h.1.trans (by decide), h.2.1.trans (by decide), h.2.2.1.trans (by decide)⟩

/-! ### HostAssemblyStore -/

theorem toNat_ofNat_of_lt (n : Nat) (h : n < 55296) : (Char.ofNat n).toNat = n := by
  have hv : n.isValidChar := Or.inl h
  simp [Char.ofNat, hv, Char.ofNatAux, Char.toNat]
  rfl

theorem char_eq_of_toNat_eq (a b : Char) (h : a.toNat = b.toNat) : a = b := by
  rw [← Char.ofNat_toNat a, ← Char.ofNat_toNat b, h]

theorem NUL_toNat : NUL.toNat = 0 := by decide

theorem towlower_toNat_eq_zero (c : Char) : (towlower c).toNat = 0 ↔ c = NUL := by
  unfold towlower
  split
  · rename_i h
    rw [toNat_ofNat_of_lt _ (by omega)]
    constructor
    · intro h0; omega
    · intro h0; rw [h0, NUL_toNat] at h; omega
  · constructor
    · intro h0; exact char_eq_of_toNat_eq _ _ (by rw [h0, NUL_toNat])
    · intro h0; rw [h0, NUL_toNat]

theorem towlower_NUL : towlower NUL = NUL := by decide

/-- The loop of `_wcsicmp` returns 0 exactly when the two C strings are equal
after lower-casing, letter by letter. -/
theorem _wcsicmp_eq_zero_iff (a b : List Char) (ha : NUL ∉ a) :
    _wcsicmp a b = 0 ↔ a.map towlower = (cstr b).map towlower := by
  induction a generalizing b with
  | nil =>
    cases b with
    | nil => simp [_wcsicmp, cstr]
    | cons c bs =>
      have := towlower_toNat_eq_zero c
      by_cases hc : c = NUL
      · simp [_wcsicmp, cstr, hc, towlower_NUL, NUL_toNat]
      · have h1 : (towlower c).toNat ≠ 0 := fun h => hc (this.mp h)
        simp [_wcsicmp, cstr, hc, List.takeWhile_cons]
        omega
  | cons x xs ih =>
    have hx : x ≠ NUL := fun h => ha (by simp [h])
    have hxs : NUL ∉ xs := fun h => ha (by simp [h])
    have hx0 : (towlower x).toNat ≠ 0 := fun h => hx ((towlower_toNat_eq_zero x).mp h)
    cases b with
    | nil =>
      simp [_wcsicmp, cstr]
      omega
    | cons c bs =>
      by_cases heq : towlower x = towlower c
      · have hc : c ≠ NUL := by
          intro h
          rw [h, towlower_NUL] at heq
          exact hx0 (by rw [heq, NUL_toNat])
        have := ih bs hxs
        simp [_wcsicmp, cstr, heq, hc, List.takeWhile_cons] at this ⊢
        exact this
      · have hne : (towlower x).toNat ≠ (towlower c).toNat :=
          fun h => heq (char_eq_of_toNat_eq _ _ h)
        by_cases hc : c = NUL
        · subst hc
          simp [_wcsicmp, cstr, heq, List.takeWhile_cons]
          omega
        · simp [_wcsicmp, cstr, heq, hc, List.takeWhile_cons]
          omega

theorem NUL_not_mem_AppDomainManagerTypeName : NUL ∉ AppDomainManagerTypeName := by decide

/-- C3: a requested identity that is not equal to `AppDomainManagerTypeName`
up to letter case makes `ProvideAssembly` return
`HRESULT_FROM_WIN32(ERROR_FILE_NOT_FOUND)` with an empty call log (no read of
`DNX_DEFAULT_LIB`, no `GetFileAttributes`, no stream creation or open) and both
output slots as the caller passed them; an identity that differs from the fixed
one only in letter case is handled exactly as the fixed identity itself. -/
theorem ProvideAssembly_identity_gate (s : Store) (lpReferencedIdentity : List Char)
    (out : Streams) :
    ((cstr lpReferencedIdentity).map towlower ≠ AppDomainManagerTypeName.map towlower →
      ProvideAssembly s lpReferencedIdentity out
        = (HRESULT_FROM_WIN32 ERROR_FILE_NOT_FOUND, out, [])) ∧
    ((cstr lpReferencedIdentity).map towlower = AppDomainManagerTypeName.map towlower →
      ProvideAssembly s lpReferencedIdentity out
        = ProvideAssembly s AppDomainManagerTypeName out) := by
  have key := _wcsicmp_eq_zero_iff AppDomainManagerTypeName lpReferencedIdentity
    NUL_not_mem_AppDomainManagerTypeName
  have self0 : _wcsicmp AppDomainManagerTypeName AppDomainManagerTypeName = 0 := by decide
  constructor
  · intro hne
    have h0 : _wcsicmp AppDomainManagerTypeName lpReferencedIdentity ≠ 0 :=
      fun h => hne (key.mp h).symm
    unfold ProvideAssembly
    rw [if_neg h0]
  · intro heq
    have h0 : _wcsicmp AppDomainManagerTypeName lpReferencedIdentity = 0 := key.mpr heq.symm
    unfold ProvideAssembly
    rw [if_pos h0, if_pos self0]

/-- A foreign identity is turned away untouched, and the upper-cased spelling
of the fixed identity is served like the fixed identity. -/
theorem ProvideAssembly_identity_gate_witness :
    ProvideAssembly
        (Store.example (some "C:\\lib".toList) ["C:\\lib\\dnx.clr.managed.dll".toList] NUL)
        "mscorlib".toList ⟨none, none⟩
      = (HRESULT_FROM_WIN32 ERROR_FILE_NOT_FOUND, ⟨none, none⟩, []) ∧
    ProvideAssembly
        (Store.example (some "C:\\lib".toList) ["C:\\lib\\dnx.clr.managed.dll".toList] NUL)
        (AppDomainManagerTypeName.map Char.toUpper) ⟨none, none⟩
      = ProvideAssembly
        (Store.example (some "C:\\lib".toList) ["C:\\lib\\dnx.clr.managed.dll".toList] NUL)
        AppDomainManagerTypeName ⟨none, none⟩ :=
  ⟨(ProvideAssembly_identity_gate _ "mscorlib".toList ⟨none, none⟩).1 (by decide),
   (ProvideAssembly_identity_gate _ (AppDomainManagerTypeName.map Char.toUpper) ⟨none, none⟩).2
     (by decide)⟩

theorem GetEnvironmentVariable_of_fits (env : WString → Option WString) (name buffer value : WString)
    (nSize : Nat) (hv : env name = some value) (hfit : value.length < nSize) :
    GetEnvironmentVariable env name buffer nSize = (value.length, value) := by
  simp [GetEnvironmentVariable, hv, hfit]

theorem GetEnvironmentVariable_of_too_long (env : WString → Option WString)
    (name buffer value : WString) (nSize : Nat) (hv : env name = some value)
    (hlong : nSize ≤ value.length) :
    GetEnvironmentVariable env name buffer nSize = (value.length + 1, buffer) := by
  simp [GetEnvironmentVariable, hv, Nat.not_lt.mpr hlong]

/-- The path the source assembles from a non-empty directory is `targetPath`. -/
theorem assembled_path_eq_targetPath (s : Store) (dir : WString) (hne : dir ≠ []) :
    (if back s dir ≠ backslash then dir ++ [backslash] else dir) ++ "dnx.clr.managed.dll".toList
      = targetPath dir := by
  unfold targetPath back
  obtain ⟨c, hc⟩ : ∃ c, dir.getLast? = some c := by
    cases h : dir.getLast? with
    | none => exact absurd (List.getLast?_eq_none_iff.mp h) hne
    | some c => exact ⟨c, rfl⟩
  rw [hc]
  by_cases h : c = backslash
  · simp [h]
  · simp [h]

theorem replace_extension (path : WString) :
    replace path (path.length - 3) 3 "pdb".toList = companionPath path := by
  unfold replace companionPath
  have : List.drop (path.length - 3 + 3) path = [] := List.drop_eq_nil_of_le (by omega)
  rw [this, List.append_nil]

/-- A directory value that fits the buffer but whose target path is longer than
`MAX_PATH` is turned away after the environment read, with no file check. -/
theorem ProvideAssembly_target_too_long (s : Store) (lpReferencedIdentity : List Char)
    (dir : WString) (out : Streams)
    (hid : (cstr lpReferencedIdentity).map towlower = AppDomainManagerTypeName.map towlower)
    (hdir : s.env "DNX_DEFAULT_LIB".toList = some dir) (hne : dir ≠ [])
    (hfit : dir.length < MAX_PATH) (hlong : MAX_PATH < (targetPath dir).length) :
    ProvideAssembly s lpReferencedIdentity out
      = (HRESULT_FROM_WIN32 ERROR_FILE_NOT_FOUND, out,
         [Event.GetEnvironmentVariable "DNX_DEFAULT_LIB".toList]) := by
  have h0 : _wcsicmp AppDomainManagerTypeName lpReferencedIdentity = 0 :=
    (_wcsicmp_eq_zero_iff _ _ NUL_not_mem_AppDomainManagerTypeName).mpr hid.symm
  have hpos : dir.length ≠ 0 := fun h => hne (List.length_eq_zero.mp h)
  have henv := GetEnvironmentVariable_of_fits s.env "DNX_DEFAULT_LIB".toList [] dir MAX_PATH
    hdir hfit
  unfold ProvideAssembly
  rw [if_pos h0]
  simp only [henv, hpos, if_false, assembled_path_eq_targetPath s dir hne, gt_iff_lt, hlong,
    if_true]

set_option maxRecDepth 100000 in
/-- C4: `DNX_DEFAULT_LIB` holds 300 characters, so the target path is far over
`MAX_PATH`.  `GetEnvironmentVariable` answers 301 and leaves the zeroed buffer
alone; the path is then built from the empty string (whatever `back()` reads
there), is short, and is probed: `GetFileAttributes` is called, and a file of
that name at the drive root or in the current directory is opened and returned
with `S_OK`. -/
theorem ProvideAssembly_oversized_directory_is_probed (g : Char) :
    MAX_PATH ≤ (List.replicate 300 (Char.ofNat 97)).length ∧
    MAX_PATH < (targetPath (List.replicate 300 (Char.ofNat 97))).length ∧
    ProvideAssembly
        (Store.example (some (List.replicate 300 (Char.ofNat 97)))
          ["\\dnx.clr.managed.dll".toList, "dnx.clr.managed.dll".toList] g)
        AppDomainManagerTypeName ⟨none, none⟩
      = (S_OK,
         ⟨some ⟨(if g = backslash then [] else [backslash]) ++ "dnx.clr.managed.dll".toList⟩, none⟩,
         [Event.GetEnvironmentVariable "DNX_DEFAULT_LIB".toList,
          Event.GetFileAttributes
            ((if g = backslash then [] else [backslash]) ++ "dnx.clr.managed.dll".toList),
          Event.QueryInterface 0,
          Event.Open ((if g = backslash then [] else [backslash]) ++ "dnx.clr.managed.dll".toList),
          Event.GetFileAttributes
            ((if g = backslash then [] else [backslash]) ++ "dnx.clr.managed.pdb".toList)]) := by
  refine ⟨by decide, by decide, ?_⟩
  have hid : _wcsicmp AppDomainManagerTypeName AppDomainManagerTypeName = 0 := by decide
  have henv : GetEnvironmentVariable
      (Store.example (some (List.replicate 300 (Char.ofNat 97)))
        ["\\dnx.clr.managed.dll".toList, "dnx.clr.managed.dll".toList] g).env
      "DNX_DEFAULT_LIB".toList [] MAX_PATH = (301, []) :=
    GetEnvironmentVariable_of_too_long _ _ _ (List.replicate 300 (Char.ofNat 97)) _
      (by simp [Store.example]) (by decide)
  unfold ProvideAssembly
  rw [if_pos hid]
  simp only [henv]
  have hback : back (Store.example (some (List.replicate 300 (Char.ofNat 97)))
        ["\\dnx.clr.managed.dll".toList, "dnx.clr.managed.dll".toList] g) [] = g := rfl
  rw [hback]
  by_cases hg : g = backslash
  · subst hg
    decide
  · simp only [hg, ne_eq, not_false_eq_true, if_true, if_false, FileExists, Store.example]
    decide

/-- C5: the image exists and opens, the companion is missing, and the slot
`*ppStmPDB` is not null on entry (an `[out]` slot the caller did not
initialise).  The call returns `S_OK` with the image stream set, but the symbol
slot is never written and still holds what it held on entry: the symbol stream
output is not null although the companion is missing.  The branch for a
companion that exists and cannot be opened does store null. -/
theorem ProvideAssembly_missing_companion_leaves_slot :
    FileExists
        (Store.example (some "C:\\lib".toList) ["C:\\lib\\dnx.clr.managed.dll".toList] NUL)
        "C:\\lib\\dnx.clr.managed.pdb".toList = false ∧
    ProvideAssembly
        (Store.example (some "C:\\lib".toList) ["C:\\lib\\dnx.clr.managed.dll".toList] NUL)
        AppDomainManagerTypeName ⟨none, some ⟨"stale".toList⟩⟩
      = (S_OK, ⟨some ⟨"C:\\lib\\dnx.clr.managed.dll".toList⟩, some ⟨"stale".toList⟩⟩,
         [Event.GetEnvironmentVariable "DNX_DEFAULT_LIB".toList,
          Event.GetFileAttributes "C:\\lib\\dnx.clr.managed.dll".toList,
          Event.QueryInterface 0,
          Event.Open "C:\\lib\\dnx.clr.managed.dll".toList,
          Event.GetFileAttributes "C:\\lib\\dnx.clr.managed.pdb".toList]) ∧
    (ProvideAssembly
        (Store.example (some "C:\\lib".toList) ["C:\\lib\\dnx.clr.managed.dll".toList] NUL)
        AppDomainManagerTypeName ⟨none, some ⟨"stale".toList⟩⟩).2.1.ppStmPDB ≠ none := by
  decide

/-- What `ProvideAssembly` does for a matched identity, a non-empty
`DNX_DEFAULT_LIB` value whose target path is within `MAX_PATH`, and an image
file that exists, is not a directory and opens (its stream object is created
and opened): it returns `S_OK` with the image slot set to the stream on the
target path, whatever the companion's state.  The symbol slot holds the
companion's stream when the companion exists and opens, null when it exists
and cannot be opened, and is not written when the companion is missing. -/
theorem ProvideAssembly_symbols_best_effort (s : Store) (lpReferencedIdentity : List Char)
    (dir : WString) (out : Streams)
    (hid : (cstr lpReferencedIdentity).map towlower = AppDomainManagerTypeName.map towlower)
    (hdir : s.env "DNX_DEFAULT_LIB".toList = some dir) (hne : dir ≠ [])
    (hlen : (targetPath dir).length ≤ MAX_PATH)
    (hexists : FileExists s (targetPath dir) = true)
    (hqi : SUCCEEDED (s.QueryInterface 0) = true)
    (hopen : SUCCEEDED (s.Open (targetPath dir)) = true) :
    (ProvideAssembly s lpReferencedIdentity out).1 = S_OK ∧
    (ProvideAssembly s lpReferencedIdentity out).2.1.ppStmAssemblyImage
      = some ⟨targetPath dir⟩ ∧
    (ProvideAssembly s lpReferencedIdentity out).2.1.ppStmPDB
      = (if FileExists s (companionPath (targetPath dir)) = true then
          (if SUCCEEDED (s.QueryInterface 1) = true ∧
              SUCCEEDED (s.Open (companionPath (targetPath dir))) = true
            then some ⟨companionPath (targetPath dir)⟩ else none)
         else out.ppStmPDB) := by
  have h0 : _wcsicmp AppDomainManagerTypeName lpReferencedIdentity = 0 :=
    (_wcsicmp_eq_zero_iff _ _ NUL_not_mem_AppDomainManagerTypeName).mpr hid.symm
  have hdl : dir.length < MAX_PATH := by
    have : dir.length ≤ (targetPath dir).length := by
      unfold targetPath
      split <;> simp
    have h19 : dir.length + 19 ≤ (targetPath dir).length := by
      unfold targetPath
      split <;> simp
    omega
  have hpos : dir.length ≠ 0 := fun h => hne (List.length_eq_zero.mp h)
  have henv := GetEnvironmentVariable_of_fits s.env "DNX_DEFAULT_LIB".toList [] dir MAX_PATH
    hdir hdl
  have hq : FAILED (s.QueryInterface 0) = false := by rw [FAILED_eq_not_SUCCEEDED, hqi]; rfl
  have ho : FAILED (s.Open (targetPath dir)) = false := by
    rw [FAILED_eq_not_SUCCEEDED, hopen]; rfl
  unfold ProvideAssembly
  rw [if_pos h0]
  simp only [henv, hpos, if_false, assembled_path_eq_targetPath s dir hne,
    Nat.not_lt.mpr hlen, hexists, hq, ho, replace_extension, Bool.not_true,
    Bool.false_eq_true, gt_iff_lt]
  by_cases hc : FileExists s (companionPath (targetPath dir)) = true
  · simp only [hc, if_true]
    by_cases h1 : SUCCEEDED (s.QueryInterface 1) = true
    · have hf1 : FAILED (s.QueryInterface 1) = false := by
        rw [FAILED_eq_not_SUCCEEDED, h1]; rfl
      by_cases h2 : SUCCEEDED (s.Open (companionPath (targetPath dir))) = true
      · have hf2 : FAILED (s.Open (companionPath (targetPath dir))) = false := by
          rw [FAILED_eq_not_SUCCEEDED, h2]; rfl
        simp [hf1, hf2, h1, h2]
      · have hf2 : FAILED (s.Open (companionPath (targetPath dir))) = true := by
          rw [FAILED_eq_not_SUCCEEDED]; simpa using h2
        simp [hf1, hf2, h1, h2]
    · have hf1 : FAILED (s.QueryInterface 1) = true := by
        rw [FAILED_eq_not_SUCCEEDED]; simpa using h1
      simp [hf1, h1]
  · simp [hc]

/-- With a symbol slot that is null on entry, the symbol stream output is a
stream exactly when the companion exists and opens, and null otherwise. -/
theorem ProvideAssembly_symbols_of_null_slot (s : Store) (lpReferencedIdentity : List Char)
    (dir : WString) (image : Option Stream)
    (hid : (cstr lpReferencedIdentity).map towlower = AppDomainManagerTypeName.map towlower)
    (hdir : s.env "DNX_DEFAULT_LIB".toList = some dir) (hne : dir ≠ [])
    (hlen : (targetPath dir).length ≤ MAX_PATH)
    (hexists : FileExists s (targetPath dir) = true)
    (hqi : SUCCEEDED (s.QueryInterface 0) = true)
    (hopen : SUCCEEDED (s.Open (targetPath dir)) = true) :
    (ProvideAssembly s lpReferencedIdentity ⟨image, none⟩).1 = S_OK ∧
    (ProvideAssembly s lpReferencedIdentity ⟨image, none⟩).2.1.ppStmAssemblyImage
      = some ⟨targetPath dir⟩ ∧
    (ProvideAssembly s lpReferencedIdentity ⟨image, none⟩).2.1.ppStmPDB
      = (if FileExists s (companionPath (targetPath dir)) = true ∧
            SUCCEEDED (s.QueryInterface 1) = true ∧
            SUCCEEDED (s.Open (companionPath (targetPath dir))) = true
          then some ⟨companionPath (targetPath dir)⟩ else none) := by
  obtain ⟨h1, h2, h3⟩ := ProvideAssembly_symbols_best_effort s lpReferencedIdentity dir
    ⟨image, none⟩ hid hdir hne hlen hexists hqi hopen
  refine ⟨h1, h2, ?_⟩
  rw [h3]
  by_cases hc : FileExists s (companionPath (targetPath dir)) = true
  · simp [hc]
  · simp [hc]

/-- The library directory holds the image and its companion: both streams are
returned. -/
theorem ProvideAssembly_symbols_best_effort_witness :
    (ProvideAssembly
        (Store.example (some "C:\\lib".toList)
          ["C:\\lib\\dnx.clr.managed.dll".toList, "C:\\lib\\dnx.clr.managed.pdb".toList] NUL)
        AppDomainManagerTypeName ⟨none, none⟩).1 = S_OK ∧
    (ProvideAssembly
        (Store.example (some "C:\\lib".toList)
          ["C:\\lib\\dnx.clr.managed.dll".toList, "C:\\lib\\dnx.clr.managed.pdb".toList] NUL)
        AppDomainManagerTypeName ⟨none, none⟩).2.1.ppStmPDB
      = some ⟨"C:\\lib\\dnx.clr.managed.pdb".toList⟩ :=
  have h := ProvideAssembly_symbols_best_effort
    (Store.example (some "C:\\lib".toList)
      ["C:\\lib\\dnx.clr.managed.dll".toList, "C:\\lib\\dnx.clr.managed.pdb".toList] NUL)
    AppDomainManagerTypeName "C:\\lib".toList ⟨none, none⟩
    (by decide) (by decide) (by decide) (by decide) (by decide) (by decide) (by decide)
  ⟨h.1, h.2.2.trans (by decide)⟩

/-! ### get_runtime_path -/

theorem GetEnvironmentVariable_of_not_isSet (env : WString → Option WString)
    (name buffer : WString) (nSize : Nat) (hpos : 0 < nSize) (h : isSet env name = false) :
    (GetEnvironmentVariable env name buffer nSize).1 = 0 := by
  unfold isSet at h
  unfold GetEnvironmentVariable
  cases hv : env name with
  | none => rfl
  | some value =>
    rw [hv] at h
    have h0 : value.length = 0 := by simpa using h
    simp [h0, hpos]

theorem GetEnvironmentVariable_of_isSet (env : WString → Option WString)
    (name buffer : WString) (nSize : Nat) (h : isSet env name = true) :
    (GetEnvironmentVariable env name buffer nSize).1 ≠ 0 := by
  unfold isSet at h
  unfold GetEnvironmentVariable
  cases hv : env name with
  | none => rw [hv] at h; exact absurd h (by decide)
  | some value =>
    rw [hv] at h
    have h0 : 0 < value.length := by simpa using h
    simp only
    split
    · exact Nat.ne_of_gt h0
    · exact Nat.succ_ne_zero _

/-- The loop stops at the first location that is set and non-empty, having
asked for the locations before it and for it, and for none after it. -/
theorem probe_of_find (env : WString → Option WString) (names : List WString) (name : WString)
    (index : Nat) (buffer : WString) (log : List Event)
    (hw : names.find? (isSet env) = some name) :
    ∃ buffer0,
      probe env names index buffer log
        = ⟨(GetEnvironmentVariable env name buffer0 MAX_PATH).1,
           index + (names.takeWhile fun n => !isSet env n).length,
           (GetEnvironmentVariable env name buffer0 MAX_PATH).2,
           log ++ ((names.takeWhile fun n => !isSet env n) ++ [name]).map
             Event.GetEnvironmentVariable⟩ := by
  induction names generalizing index buffer log with
  | nil => simp at hw
  | cons x xs ih =>
    by_cases hx : isSet env x = true
    · have hname : x = name := by simpa [List.find?, hx] using hw
      subst hname
      refine ⟨buffer, ?_⟩
      simp [probe, GetEnvironmentVariable_of_isSet env x buffer MAX_PATH hx, hx]
    · have hx0 : isSet env x = false := by simpa using hx
      have hrest : xs.find? (isSet env) = some name := by simpa [List.find?, hx0] using hw
      obtain ⟨b0, hb0⟩ := ih (index + 1)
        (GetEnvironmentVariable env x buffer MAX_PATH).2
        (log ++ [Event.GetEnvironmentVariable x]) hrest
      refine ⟨b0, ?_⟩
      have hz := GetEnvironmentVariable_of_not_isSet env x buffer MAX_PATH (by decide) hx0
      simp only [probe, hz, ne_eq, not_true_eq_false, if_false]
      rw [hb0]
      simp [hx0, Nat.add_assoc, Nat.add_comm 1]

/-- The index the loop stops at designates the winning location. -/
theorem getD_takeWhile_of_find (env : WString → Option WString) (names : List WString)
    (name : WString) (hw : names.find? (isSet env) = some name) :
    names.getD (names.takeWhile fun n => !isSet env n).length [] = name ∧
    (names.takeWhile fun n => !isSet env n).length < names.length := by
  induction names with
  | nil => simp at hw
  | cons x xs ih =>
    by_cases hx : isSet env x = true
    · have hname : x = name := by simpa [List.find?, hx] using hw
      subst hname
      simp [hx]
    · have hx0 : isSet env x = false := by simpa using hx
      have hrest : xs.find? (isSet env) = some name := by simpa [List.find?, hx0] using hw
      have := ih hrest
      simpa [hx0] using this

/-- The loop stops at index 0 exactly when the winner is the first location. -/
theorem takeWhile_length_ne_zero (env : WString → Option WString) (first : WString)
    (rest : List WString) (name : WString)
    (hw : (first :: rest).find? (isSet env) = some name) :
    (((first :: rest).takeWhile fun n => !isSet env n).length != 0) = (name != first) := by
  by_cases h0 : isSet env first = true
  · have hname : first = name := by simpa [List.find?, h0] using hw
    subst hname
    simp [h0]
  · have h00 : isSet env first = false := by simpa using h0
    have hset : isSet env name = true := List.find?_some hw
    have hne : name ≠ first := by
      intro h
      rw [h, h00] at hset
      exact absurd hset (by decide)
    simp [h00, hne]

set_option maxRecDepth 100000 in
/-- C6, where the claim fails: `DNX_SERVICING` holds 300 characters and
`ProgramFiles(x86)` a valid directory.  The first variable with a non-empty
value of valid length is `ProgramFiles(x86)`, yet `get_runtime_path` raises on
`DNX_SERVICING` and never calls the servicing collaborator. -/
theorem get_runtime_path_no_fallback_past_invalid :
    firstValid (envOf [("DNX_SERVICING", List.replicate 300 (Char.ofNat 97)),
        ("ProgramFiles(x86)", "C:\\PF86".toList)]) = some "ProgramFiles(x86)".toList ∧
    get_runtime_path
        (Pal.example (envOf [("DNX_SERVICING", List.replicate 300 (Char.ofNat 97)),
          ("ProgramFiles(x86)", "C:\\PF86".toList)]) "C:\\r\\".toList (fun d => .ok (0, d)))
      = (.error (.runtime_error ("The value of the 'DNX_SERVICING' environment variable " ++
            "is invalid. The application will exit.").toList),
         [Event.GetEnvironmentVariable "DNX_SERVICING".toList]) := by
  constructor
  · decide
  · decide

theorem servicingCalls_probes (l : List WString) :
    servicingCalls (l.map Event.GetEnvironmentVariable) = [] := by
  induction l with
  | nil => rfl
  | cons a l ih => simp [servicingCalls]

/-- What `get_runtime_path` has in hand after its loop when a winner exists. -/
theorem probe_of_winner (p : Pal) (name : WString) (hw : winner p.env = some name) :
    ∃ buffer0,
      probe p.env servicing_locations 0 p.uninitialised []
        = ⟨(GetEnvironmentVariable p.env name buffer0 MAX_PATH).1,
           (servicing_locations.takeWhile fun n => !isSet p.env n).length,
           (GetEnvironmentVariable p.env name buffer0 MAX_PATH).2,
           ((servicing_locations.takeWhile fun n => !isSet p.env n) ++ [name]).map
             Event.GetEnvironmentVariable⟩ := by
  obtain ⟨b0, hb0⟩ := probe_of_find p.env servicing_locations name 0 p.uninitialised [] hw
  exact ⟨b0, by simpa using hb0⟩

/-- C6 as amended: when the first of `DNX_SERVICING`, `ProgramFiles(x86)`,
`ProgramFiles` that is set and non-empty (the winner) has a value of fewer than
`MAX_PATH` characters, the servicing collaborator is called exactly once, with
that value and with the is-default flag false exactly when the winner is
`DNX_SERVICING`; the result is the collaborator's path combined with "bin\"
when that path is non-empty and the empty string otherwise. -/
theorem get_runtime_path_priority (p : Pal) (name value : WString)
    (hw : winner p.env = some name) (hv : p.env name = some value)
    (hfit : value.length < MAX_PATH) :
    servicingCalls (get_runtime_path p).2
      = [Event.servicing value (name != "DNX_SERVICING".toList)] ∧
    (get_runtime_path p).1
      = .ok (if (p.servicing value (name != "DNX_SERVICING".toList)).length > 0
             then p.path_combine (p.servicing value (name != "DNX_SERVICING".toList))
                    "bin\\".toList
             else []) := by
  obtain ⟨b0, hb0⟩ := probe_of_winner p name hw
  have hidx := (getD_takeWhile_of_find p.env servicing_locations name hw).2
  have hflag := takeWhile_length_ne_zero p.env "DNX_SERVICING".toList
    ["ProgramFiles(x86)".toList, "ProgramFiles".toList] name hw
  have hg := GetEnvironmentVariable_of_fits p.env name b0 value MAX_PATH hv hfit
  have hflag2 : ((servicing_locations.takeWhile fun n => !isSet p.env n).length != 0)
      = (name != "DNX_SERVICING".toList) := hflag
  have hnot : ¬ value.length > MAX_PATH := by omega
  unfold get_runtime_path
  simp only [hb0, hg, hidx, not_true_eq_false, if_false, hnot, hflag2]
  constructor
  · split <;> simp [servicingCalls, List.filter_append, -List.map_append]
  · split <;> rfl

/-- The case the specification singles out: `DNX_SERVICING` unset, both
`ProgramFiles(x86)` and `ProgramFiles` set.  The value used is that of
`ProgramFiles(x86)`, with the is-default flag set. -/
theorem get_runtime_path_priority_witness :
    servicingCalls (get_runtime_path
        (Pal.example (envOf [("ProgramFiles(x86)", "C:\\PF86".toList),
          ("ProgramFiles", "C:\\PF".toList)]) "C:\\r\\".toList (fun d => .ok (0, d)))).2
      = [Event.servicing "C:\\PF86".toList true] ∧
    (get_runtime_path
        (Pal.example (envOf [("ProgramFiles(x86)", "C:\\PF86".toList),
          ("ProgramFiles", "C:\\PF".toList)]) "C:\\r\\".toList (fun d => .ok (0, d)))).1
      = .ok "C:\\r\\bin\\".toList :=
  have h := get_runtime_path_priority
    (Pal.example (envOf [("ProgramFiles(x86)", "C:\\PF86".toList),
      ("ProgramFiles", "C:\\PF".toList)]) "C:\\r\\".toList (fun d => .ok (0, d)))
    "ProgramFiles(x86)".toList "C:\\PF86".toList (by decide) (by decide) (by decide)
  ⟨h.1.trans (by decide), h.2.trans (by decide)⟩

/-- C7: when the winner (the first of the three locations that is set and
non-empty) has a value longer than `MAX_PATH`, `get_runtime_path` raises
`std::runtime_error` with a message that names the winner; the only calls made
are the `GetEnvironmentVariable` probes of the locations before the winner and
of the winner itself, so no lower-priority source is consulted and the
servicing collaborator is not called. -/
theorem get_runtime_path_invalid_winner (p : Pal) (name value : WString)
    (hw : winner p.env = some name) (hv : p.env name = some value)
    (hlong : MAX_PATH < value.length) :
    (get_runtime_path p).1
      = .error (.runtime_error ("The value of the '".toList ++ p.to_string name
          ++ "' environment variable is invalid. The application will exit.".toList)) ∧
    (get_runtime_path p).2
      = ((servicing_locations.takeWhile fun n => !isSet p.env n) ++ [name]).map
          Event.GetEnvironmentVariable ∧
    servicingCalls (get_runtime_path p).2 = [] := by
  obtain ⟨b0, hb0⟩ := probe_of_winner p name hw
  obtain ⟨hname, hidx⟩ := getD_takeWhile_of_find p.env servicing_locations name hw
  have hg := GetEnvironmentVariable_of_too_long p.env name b0 value MAX_PATH hv (by omega)
  have hgt : value.length + 1 > MAX_PATH := by omega
  have hrun : get_runtime_path p
      = (.error (.runtime_error ("The value of the '".toList ++ p.to_string name
          ++ "' environment variable is invalid. The application will exit.".toList)),
         ((servicing_locations.takeWhile fun n => !isSet p.env n) ++ [name]).map
          Event.GetEnvironmentVariable) := by
    unfold get_runtime_path
    simp only [hb0, hg, hidx, not_true_eq_false, if_false, hgt, if_true, hname]
  rw [hrun]
  exact ⟨rfl, rfl, servicingCalls_probes _⟩

set_option maxRecDepth 100000 in
/-- `ProgramFiles(x86)` holds 300 characters and `ProgramFiles` is valid: the
error names `ProgramFiles(x86)` and `ProgramFiles` is never read. -/
theorem get_runtime_path_invalid_winner_witness :
    get_runtime_path
        (Pal.example (envOf [("ProgramFiles(x86)", List.replicate 300 (Char.ofNat 97)),
          ("ProgramFiles", "C:\\PF".toList)]) "C:\\r\\".toList (fun d => .ok (0, d)))
      = (.error (.runtime_error ("The value of the 'ProgramFiles(x86)' environment variable " ++
            "is invalid. The application will exit.").toList),
         [Event.GetEnvironmentVariable "DNX_SERVICING".toList,
          Event.GetEnvironmentVariable "ProgramFiles(x86)".toList]) :=
  have h := get_runtime_path_invalid_winner
    (Pal.example (envOf [("ProgramFiles(x86)", List.replicate 300 (Char.ofNat 97)),
      ("ProgramFiles", "C:\\PF".toList)]) "C:\\r\\".toList (fun d => .ok (0, d)))
    "ProgramFiles(x86)".toList (List.replicate 300 (Char.ofNat 97))
    (by decide) (by decide) (by decide)
  Prod.ext (h.1.trans (by decide)) (h.2.1.trans (by decide))

/-! ### CallApplicationMain -/

/-- C8, where the claim fails: on Windows the entry point returns 1, which is
not zero but satisfies `SUCCEEDED`, and leaves 42 in `data->exitcode`.  The
function returns 42, not 1. -/
theorem Win32_CallApplicationMain_positive_result :
    (Win32.CallApplicationMain
        (Pal.example (envOf [("ProgramFiles", "C:\\PF".toList)]) []
          (fun d => .ok (1, { d with exitcode := 42 })))
        "dnx.clr.dll".toList "CallApplicationMain".toList ⟨none, 0⟩).1 = .ok 42 ∧
    (Win32.CallApplicationMain
        (Pal.example (envOf [("ProgramFiles", "C:\\PF".toList)]) []
          (fun d => .ok (1, { d with exitcode := 42 })))
        "dnx.clr.dll".toList "CallApplicationMain".toList ⟨none, 0⟩).1 ≠ .ok 1 := by
  decide

/-- C8 as amended: when the module loads, the export is found, the traces
return and the entry point returns `r` leaving `d` in the data block, the Unix
`CallApplicationMain` returns `d.exitcode` when `r` is 0 and `r` otherwise,
and the Windows one returns `d.exitcode` when `r` is not negative
(`SUCCEEDED`) and `r` when it is negative. -/
theorem CallApplicationMain_exit_code (p : Pal) (moduleName functionName : WString)
    (data : CALL_APPLICATION_MAIN_DATA) (hwrite : ∀ m v, p.write m v = none) :
    (∀ h pfn r d,
      p.load (p.nativeBootstrapperDirectory ++ "/".toList ++ moduleName) = some h →
      p.resolve h functionName = some pfn →
      pfn data = .ok (r, d) →
      (Unix.CallApplicationMain p moduleName functionName data).1
        = .ok (if r = 0 then d.exitcode else r)) ∧
    (∀ runtime_new_path h pfn r d,
      (get_runtime_path p).1 = .ok runtime_new_path →
      p.load (p.path_combine runtime_new_path moduleName) = some h →
      p.resolve h functionName = some pfn →
      pfn (if runtime_new_path.length > 0
            then { data with runtimeDirectory := some runtime_new_path } else data)
        = .ok (r, d) →
      (Win32.CallApplicationMain p moduleName functionName data).1
        = .ok (if 0 ≤ r then d.exitcode else r)) := by
  constructor
  · intro h pfn r d hload hres hentry
    simp only [Unix.CallApplicationMain, Unix.tryBlock, hload, hwrite, hres, hentry]
  · intro rp h pfn r d hrp hload hres hentry
    by_cases hpos : rp.length > 0
    · rw [if_pos hpos] at hentry
      simp only [Win32.CallApplicationMain, Win32.tryBlock, hrp, hload, hwrite, hres, hentry,
        hpos, SUCCEEDED, decide_True, decide_False, if_true, if_false, Bool.false_eq_true,
        decide_eq_true_eq]
    · rw [if_neg hpos] at hentry
      simp only [Win32.CallApplicationMain, Win32.tryBlock, hrp, hload, hwrite, hres, hentry,
        hpos, SUCCEEDED, decide_True, decide_False, if_true, if_false, Bool.false_eq_true,
        decide_eq_true_eq]

/-- On both platforms an entry point that returns the negative value -5 makes
the function return -5, whatever it left in the exit-code slot. -/
theorem CallApplicationMain_exit_code_witness :
    (Unix.CallApplicationMain
        (Pal.example (envOf [("ProgramFiles", "C:\\PF".toList)]) []
          (fun d => .ok (-5, { d with exitcode := 42 })))
        "dnx.coreclr.so".toList "CallApplicationMain".toList ⟨none, 0⟩).1 = .ok (-5) ∧
    (Win32.CallApplicationMain
        (Pal.example (envOf [("ProgramFiles", "C:\\PF".toList)]) []
          (fun d => .ok (-5, { d with exitcode := 42 })))
        "dnx.clr.dll".toList "CallApplicationMain".toList ⟨none, 0⟩).1 = .ok (-5) :=
  have h := CallApplicationMain_exit_code
    (Pal.example (envOf [("ProgramFiles", "C:\\PF".toList)]) []
      (fun d => .ok (-5, { d with exitcode := 42 })))
  ⟨((h "dnx.coreclr.so".toList "CallApplicationMain".toList ⟨none, 0⟩ (fun _ _ => rfl)).1
      1 _ (-5) ⟨none, 42⟩ rfl rfl rfl).trans (by decide),
   ((h "dnx.clr.dll".toList "CallApplicationMain".toList ⟨none, 0⟩ (fun _ _ => rfl)).2
      [] 1 _ (-5) ⟨none, 42⟩ (by decide) rfl rfl rfl).trans (by decide)⟩

/-- C9: on Unix the module loads, the export is found, and the entry point
raises an object that is not a `std::exception`.  The handler
`catch (const std::exception&)` does not take it: the log holds one
successful load and no unload.  The Windows function, whose handler is
`catch (...)`, unloads on the same input. -/
theorem Unix_CallApplicationMain_leaks_on_foreign_exception :
    Unix.CallApplicationMain
        (Pal.example (envOf []) [] (fun _ => .error (.foreign 0)))
        "dnx.coreclr.so".toList "CallApplicationMain".toList ⟨none, 0⟩
      = (.error (.foreign 0),
         [Event.load "/opt/dnx/bin/dnx.coreclr.so".toList (some 1),
          Event.write "Loaded module: dnx.coreclr.so".toList true,
          Event.resolve 1 "CallApplicationMain".toList,
          Event.write "Found export: CallApplicationMain".toList true,
          Event.entry]) ∧
    loads (Unix.CallApplicationMain
        (Pal.example (envOf []) [] (fun _ => .error (.foreign 0)))
        "dnx.coreclr.so".toList "CallApplicationMain".toList ⟨none, 0⟩).2 = 1 ∧
    unloads (Unix.CallApplicationMain
        (Pal.example (envOf []) [] (fun _ => .error (.foreign 0)))
        "dnx.coreclr.so".toList "CallApplicationMain".toList ⟨none, 0⟩).2 = 0 ∧
    loads (Win32.CallApplicationMain
        (Pal.example (envOf [("DNX_SERVICING", "C:\\s".toList)]) []
          (fun _ => .error (.foreign 0)))
        "dnx.clr.dll".toList "CallApplicationMain".toList ⟨none, 0⟩).2 = 1 ∧
    unloads (Win32.CallApplicationMain
        (Pal.example (envOf [("DNX_SERVICING", "C:\\s".toList)]) []
          (fun _ => .error (.foreign 0)))
        "dnx.clr.dll".toList "CallApplicationMain".toList ⟨none, 0⟩).2 = 1 := by
  decide

/-! ### GetNativeBootstrapperDirectory -/

/-- A list that contains `a` splits at the last occurrence of `a`. -/
theorem split_at_last (a : Char) (l : List Char) (h : a ∈ l) :
    ∃ pre suf, l = pre ++ a :: suf ∧ a ∉ suf := by
  induction l with
  | nil => simp at h
  | cons x xs ih =>
    by_cases hxs : a ∈ xs
    · obtain ⟨pre, suf, hl, hs⟩ := ih hxs
      exact ⟨x :: pre, suf, by rw [hl]; rfl, hs⟩
    · have hx : a = x := by
        rcases List.mem_cons.mp h with h1 | h1
        · exact h1
        · exact absurd h1 hxs
      exact ⟨[], xs, by rw [hx]; rfl, hxs⟩

/-- Scanning back from inside the part after the last backslash stops at that
backslash, provided the iteration bound allows the steps needed. -/
theorem scanBack_finds_last (pre suf rest : List Char) (hs : backslash ∉ suf) (k fuel : Nat)
    (hk : k ≤ suf.length) (hfuel : k < fuel) (hsmall : pre.length + k < 2 ^ 32) :
    scanBack (pre ++ backslash :: (suf ++ rest)) fuel (pre.length + k) = some pre.length := by
  induction k generalizing fuel with
  | zero =>
    obtain ⟨f, rfl⟩ : ∃ f, fuel = f + 1 := ⟨fuel - 1, by omega⟩
    have hget : (pre ++ backslash :: (suf ++ rest)).get? pre.length = some backslash := by
      rw [List.get?_eq_getElem?, List.getElem?_append_right (by omega)]
      simp
    unfold scanBack
    simp only [Nat.add_zero, hget, ne_eq, not_true_eq_false, if_false]
  | succ k ih =>
    obtain ⟨f, rfl⟩ : ∃ f, fuel = f + 1 := ⟨fuel - 1, by omega⟩
    have hget : (pre ++ backslash :: (suf ++ rest)).get? (pre.length + (k + 1))
        = some (suf.get ⟨k, by omega⟩) := by
      rw [List.get?_eq_getElem?, List.getElem?_append_right (by omega)]
      have h1 : pre.length + (k + 1) - pre.length = k + 1 := by omega
      rw [h1, List.getElem?_cons_succ, List.getElem?_append_left (by omega)]
      simp
    have hne : suf.get ⟨k, by omega⟩ ≠ backslash := by
      intro h
      exact hs (h ▸ List.get_mem suf k (by omega))
    have hstep : (pre.length + (k + 1) + 2 ^ 32 - 1) % 2 ^ 32 = pre.length + k := by omega
    unfold scanBack
    simp only [hget, hne, ne_eq, not_false_eq_true, if_true, hstep]
    exact ih f (by omega) (by omega) (by omega)

/-- The string held by an array that has a terminator right after `a`. -/
theorem cstr_append_NUL (a b : List Char) (ha : NUL ∉ a) : cstr (a ++ NUL :: b) = a := by
  induction a with
  | nil => simp [cstr]
  | cons x xs ih =>
    have hx : x ≠ NUL := fun h => ha (by simp [h])
    have hxs : NUL ∉ xs := fun h => ha (by simp [h])
    have := ih hxs
    simp only [cstr] at this ⊢
    simp [List.takeWhile_cons, hx, this]

/-- C10: for an executable path of at most `MAX_PATH - 1` characters that
contains a backslash (and so has at least one character), the backward scan of
the Windows `GetNativeBootstrapperDirectory` ends inside the array whenever
the iteration bound is at least the length of the path, whatever the array
held before, and the result is the prefix of the path up to and including its
last backslash: the path is the result followed by a suffix without
backslash, and the result ends in a backslash. -/
theorem GetNativeBootstrapperDirectory_is_directory_prefix (fuel : Nat) (fileName : WString)
    (uninitialised : List Char)
    (hlen : fileName.length ≤ MAX_PATH - 1) (hbs : backslash ∈ fileName)
    (hnul : NUL ∉ fileName) (hfuel : fileName.length ≤ fuel) :
    ∃ dir suffix,
      GetNativeBootstrapperDirectory fuel fileName uninitialised = some dir ∧
      fileName = dir ++ suffix ∧
      dir.getLast? = some backslash ∧
      backslash ∉ suffix := by
  obtain ⟨pre, suf, hsplit, hsuf⟩ := split_at_last backslash fileName hbs
  refine ⟨pre ++ [backslash], suf, ?_, by simp [hsplit], by simp, hsuf⟩
  have hmax : MAX_PATH = 260 := rfl
  have hn : fileName.length = pre.length + 1 + suf.length := by
    rw [hsplit]; simp; omega
  have hfit : fileName.length < MAX_PATH := by omega
  have hstart : (fileName.length + 2 ^ 32 - 1) % 2 ^ 32 = pre.length + suf.length := by omega
  have hbuf : fileName ++ [NUL] ++ uninitialised.drop (fileName.length + 1)
      = pre ++ backslash :: (suf ++ (NUL :: uninitialised.drop (fileName.length + 1))) := by
    rw [hsplit]; simp
  have hscan := scanBack_finds_last pre suf (NUL :: uninitialised.drop (fileName.length + 1))
    hsuf suf.length fuel (Nat.le_refl _) (by omega) (by omega)
  have hnext : (pre.length + 1) % 2 ^ 32 = pre.length + 1 := by omega
  have hpre : NUL ∉ pre ++ [backslash] := by
    intro h
    rcases List.mem_append.mp h with h1 | h1
    · exact hnul (by rw [hsplit]; simp [h1])
    · have : NUL = backslash := by simpa using h1
      exact absurd this (by decide)
  have hset : (pre ++ backslash :: (suf ++ (NUL :: uninitialised.drop (fileName.length + 1)))).set
      (pre.length + 1) NUL
      = (pre ++ [backslash]) ++ NUL ::
          (suf ++ (NUL :: uninitialised.drop (fileName.length + 1))).tail := by
    have h1 : pre ++ backslash :: (suf ++ (NUL :: uninitialised.drop (fileName.length + 1)))
        = (pre ++ [backslash]) ++ (suf ++ (NUL :: uninitialised.drop (fileName.length + 1))) := by
      simp
    have h2 : pre.length + 1 - (pre ++ [backslash]).length = 0 := by simp
    rw [h1, List.set_append_right _ _ (by simp), h2]
    cases suf with
    | nil => simp
    | cons c cs => simp
  unfold GetNativeBootstrapperDirectory GetModuleFileName
  simp only [hfit, if_true, hstart, hbuf, hscan, hnext]
  have hlt : pre.length + 1
      < (pre ++ backslash :: (suf ++ (NUL :: uninitialised.drop (fileName.length + 1)))).length := by
    simp
  rw [if_pos hlt, hset, cstr_append_NUL _ _ hpre]

set_option maxRecDepth 100000 in
/-- The directory of `C:\dnx\bin\dnx.exe` is `C:\dnx\bin\`. -/
theorem GetNativeBootstrapperDirectory_is_directory_prefix_witness :
    ∃ dir suffix,
      GetNativeBootstrapperDirectory 260 "C:\\dnx\\bin\\dnx.exe".toList
        (List.replicate 260 (Char.ofNat 120)) = some dir ∧
      "C:\\dnx\\bin\\dnx.exe".toList = dir ++ suffix ∧
      dir.getLast? = some backslash ∧
      backslash ∉ suffix :=
  GetNativeBootstrapperDirectory_is_directory_prefix 260 "C:\\dnx\\bin\\dnx.exe".toList
    (List.replicate 260 (Char.ofNat 120)) (by decide) (by decide) (by decide) (by decide)

/-! ### Release of the module on the remaining paths -/

theorem loads_append (a b : List Event) : loads (a ++ b) = loads a + loads b := by
  simp [loads, List.countP_append]

theorem unloads_append (a b : List Event) : unloads (a ++ b) = unloads a + unloads b := by
  simp [unloads, List.countP_append]

theorem probe_quiet (env : WString → Option WString) (names : List WString) (index : Nat)
    (buffer : WString) (log : List Event) :
    loads (probe env names index buffer log).log = loads log ∧
    unloads (probe env names index buffer log).log = unloads log := by
  induction names generalizing index buffer log with
  | nil => exact ⟨rfl, rfl⟩
  | cons x xs ih =>
    unfold probe
    simp only
    split
    · simp [loads_append, unloads_append, loads, unloads]
    · obtain ⟨h1, h2⟩ := ih (index + 1) (GetEnvironmentVariable env x buffer MAX_PATH).2
        (log ++ [Event.GetEnvironmentVariable x])
      rw [h1, h2]
      simp [loads_append, unloads_append, loads, unloads]

/-- The function `get_runtime_path` neither loads nor unloads a module. -/
theorem get_runtime_path_quiet (p : Pal) :
    loads (get_runtime_path p).2 = 0 ∧ unloads (get_runtime_path p).2 = 0 := by
  obtain ⟨h1, h2⟩ := probe_quiet p.env servicing_locations 0 p.uninitialised []
  have h10 : loads (probe p.env servicing_locations 0 p.uninitialised []).log = 0 := h1
  have h20 : unloads (probe p.env servicing_locations 0 p.uninitialised []).log = 0 := h2
  unfold get_runtime_path
  simp only
  split
  · exact ⟨h10, h20⟩
  · split
    · exact ⟨h10, h20⟩
    · split <;> simp [loads_append, unloads_append, h10, h20] <;> simp [loads, unloads]

/-- On Windows every path through `CallApplicationMain` (a raising
`get_runtime_path`, a raising trace, load failure, missing export, a raising
entry point of any kind, normal return) unloads exactly as often as it loaded,
which is at most once. -/
theorem Win32_CallApplicationMain_balanced (p : Pal) (moduleName functionName : WString)
    (data : CALL_APPLICATION_MAIN_DATA) :
    unloads (Win32.CallApplicationMain p moduleName functionName data).2
      = loads (Win32.CallApplicationMain p moduleName functionName data).2 ∧
    loads (Win32.CallApplicationMain p moduleName functionName data).2 ≤ 1 := by
  obtain ⟨hl, hu⟩ := get_runtime_path_quiet p
  cases hrp : (get_runtime_path p).1 with
  | error e =>
    simp only [Win32.CallApplicationMain, Win32.tryBlock, hrp, hl, hu]
    exact ⟨trivial, Nat.zero_le _⟩
  | ok rp =>
    cases hw1 : (if decide (rp.length > 0) = true
        then p.write ("Redirecting runtime to: ".toList ++ rp) true else none) with
    | some e =>
      simp only [Win32.CallApplicationMain, Win32.tryBlock, hrp, hw1]
      split <;> simp only [loads_append, unloads_append, hl, hu] <;> simp [loads, unloads]
    | none =>
      cases hload : p.load (p.path_combine rp moduleName) with
      | none =>
        simp only [Win32.CallApplicationMain, Win32.tryBlock, hrp, hw1, hload]
        split <;> simp only [loads_append, unloads_append, hl, hu] <;> simp [loads, unloads]
      | some h =>
        cases hw2 : p.write ("Loaded module: ".toList ++ p.path_combine rp moduleName) true with
        | some e =>
          simp only [Win32.CallApplicationMain, Win32.tryBlock, hrp, hw1, hload, hw2]
          split <;> simp only [loads_append, unloads_append, hl, hu] <;> simp [loads, unloads]
        | none =>
          cases hres : p.resolve h functionName with
          | none =>
            simp only [Win32.CallApplicationMain, Win32.tryBlock, hrp, hw1, hload, hw2, hres]
            split <;> simp only [loads_append, unloads_append, hl, hu] <;> simp [loads, unloads]
          | some pfn =>
            cases hw3 : p.write ("Found export: ".toList ++ p.to_wstring functionName) true with
            | some e =>
              simp only [Win32.CallApplicationMain, Win32.tryBlock, hrp, hw1, hload, hw2, hres,
                hw3]
              split <;> simp only [loads_append, unloads_append, hl, hu] <;>
                simp [loads, unloads]
            | none =>
              cases hentry : pfn (if decide (rp.length > 0) = true
                  then { data with runtimeDirectory := some rp } else data) with
              | error e =>
                simp only [Win32.CallApplicationMain, Win32.tryBlock, hrp, hw1, hload, hw2, hres,
                  hw3, hentry]
                split <;> simp only [loads_append, unloads_append, hl, hu] <;>
                  simp [loads, unloads]
              | ok v =>
                obtain ⟨hr, d⟩ := v
                simp only [Win32.CallApplicationMain, Win32.tryBlock, hrp, hw1, hload, hw2, hres,
                  hw3, hentry]
                split <;> simp only [loads_append, unloads_append, hl, hu] <;>
                  simp [loads, unloads]

/-- On Unix the same holds on every path on which what leaves the function is
a return value or an exception derived from `std::exception`. -/
theorem Unix_CallApplicationMain_balanced_of_std (p : Pal) (moduleName functionName : WString)
    (data : CALL_APPLICATION_MAIN_DATA)
    (hstd : ∀ e, (Unix.CallApplicationMain p moduleName functionName data).1 = .error e →
      e.isStdException = true) :
    unloads (Unix.CallApplicationMain p moduleName functionName data).2
      = loads (Unix.CallApplicationMain p moduleName functionName data).2 ∧
    loads (Unix.CallApplicationMain p moduleName functionName data).2 ≤ 1 := by
  revert hstd
  cases hload : p.load (p.nativeBootstrapperDirectory ++ "/".toList ++ moduleName) with
  | none =>
    simp only [Unix.CallApplicationMain, Unix.tryBlock, hload, Exn.isStdException, if_true]
    intro _
    simp [loads, unloads]
  | some h =>
    cases hw2 : p.write ("Loaded module: ".toList ++ moduleName) true with
    | some e =>
      simp only [Unix.CallApplicationMain, Unix.tryBlock, hload, hw2]
      intro hstd
      rw [if_pos (hstd e (by split <;> rfl))]
      simp [loads, unloads]
    | none =>
      cases hres : p.resolve h functionName with
      | none =>
        simp only [Unix.CallApplicationMain, Unix.tryBlock, hload, hw2, hres,
          Exn.isStdException, if_true]
        intro _
        simp [loads, unloads]
      | some pfn =>
        cases hw3 : p.write ("Found export: ".toList ++ functionName) true with
        | some e =>
          simp only [Unix.CallApplicationMain, Unix.tryBlock, hload, hw2, hres, hw3]
          intro hstd
          rw [if_pos (hstd e (by split <;> rfl))]
          simp [loads, unloads]
        | none =>
          cases hentry : pfn data with
          | error e =>
            simp only [Unix.CallApplicationMain, Unix.tryBlock, hload, hw2, hres, hw3, hentry]
            intro hstd
            rw [if_pos (hstd e (by split <;> rfl))]
            simp [loads, unloads]
          | ok v =>
            obtain ⟨r, d⟩ := v
            simp only [Unix.CallApplicationMain, Unix.tryBlock, hload, hw2, hres, hw3, hentry]
            intro _
            simp [loads, unloads]

end Dnx
